import Mathlib

/-!
Verification of the PDF report-generation pipeline
(`src/reportUtils.js`, `src/main.js`).

The development shallowly embeds the JavaScript source:

* JavaScript numbers are modelled by `JsNum`: an exact rational together
  with the three non-finite values `Infinity`, `-Infinity` and `NaN`.
  All arithmetic appearing in the verified code paths is exact on the
  concrete inputs considered (small integers and divisions), so the
  rational model coincides with IEEE-754 double behaviour there.
* PDF documents are modelled by their page lists; loading, saving and
  page copying of the pdf-lib black box become total functions on that
  model, with parse failure made explicit (`PdfBytes.invalid`).
* The jsPDF drawing primitives are recorded as emitted drawing
  operations where a claim depends on them, and are dropped where only
  cursor arithmetic or page structure matters.

Each section names the JavaScript function it embeds and the source
lines it was transcribed from.
-/

/-! ## JavaScript number semantics -/

/-- A JavaScript number: either a finite value (kept as an exact
rational) or one of the special values `Infinity`, `-Infinity`, `NaN`. -/
inductive JsNum where
  | num (q : ℚ)
  | posInf
  | negInf
  | nan
deriving DecidableEq, Repr

/-- JavaScript division. Finite by finite nonzero is exact division;
division of a nonzero finite value by zero gives a signed infinity,
`0/0` gives `NaN`, and `NaN` is absorbing. Infinite dividends follow
IEEE-754: `±Infinity / finite` keeps (or flips) the sign, and
`±Infinity / ±Infinity` is `NaN`. -/
def jsDiv : JsNum → JsNum → JsNum
  | .num a, .num b =>
      if b = 0 then
        if a = 0 then .nan else if a > 0 then .posInf else .negInf
      else .num (a / b)
  | .posInf, .num b => if b < 0 then .negInf else .posInf
  | .negInf, .num b => if b < 0 then .posInf else .negInf
  | .num _, .posInf => .num 0
  | .num _, .negInf => .num 0
  | _, _ => .nan

/-- JavaScript multiplication (restricted to the sign combinations the
embedded code can produce; `0 * Infinity` is `NaN` as in IEEE-754). -/
def jsMul : JsNum → JsNum → JsNum
  | .num a, .num b => .num (a * b)
  | .posInf, .num b => if b = 0 then .nan else if b > 0 then .posInf else .negInf
  | .num a, .posInf => if a = 0 then .nan else if a > 0 then .posInf else .negInf
  | .negInf, .num b => if b = 0 then .nan else if b > 0 then .negInf else .posInf
  | .num a, .negInf => if a = 0 then .nan else if a > 0 then .negInf else .posInf
  | .posInf, .posInf => .posInf
  | .negInf, .negInf => .posInf
  | .posInf, .negInf => .negInf
  | .negInf, .posInf => .negInf
  | _, _ => .nan

/-- JavaScript subtraction. -/
def jsSub : JsNum → JsNum → JsNum
  | .num a, .num b => .num (a - b)
  | .num _, .posInf => .negInf
  | .num _, .negInf => .posInf
  | .posInf, .num _ => .posInf
  | .negInf, .num _ => .negInf
  | .posInf, .negInf => .posInf
  | .negInf, .posInf => .negInf
  | _, _ => .nan

/-- `Math.round`: round to the nearest integer, ties toward positive
infinity (`Math.round(x) = floor(x + 0.5)`), which is exactly Mathlib
`round` on `ℚ`. Non-finite inputs are returned unchanged, as in JS. -/
def jsRound : JsNum → JsNum
  | .num q => .num (round q : ℤ)
  | x => x

/-- The JavaScript strict comparison `a < b`: `NaN` compares false with
everything, infinities compare as expected. -/
def jsLtB : JsNum → JsNum → Bool
  | .num a, .num b => decide (a < b)
  | .num _, .posInf => true
  | .negInf, .num _ => true
  | .negInf, .posInf => true
  | _, _ => false

/-- `Number.prototype.toFixed(2)`. On non-finite values JS returns the
plain string rendering. On a finite value the result is the decimal
rendering of `round(q * 100)` with two forced decimals; JS breaks ties
by choosing the larger candidate, which for the values arising here is
Mathlib `round`. (The sign of a negative value rounding to zero is not
modelled; no verified code path produces one.) -/
def jsToFixed2 : JsNum → String
  | .nan => "NaN"
  | .posInf => "Infinity"
  | .negInf => "-Infinity"
  | .num q =>
      (if round (q * 100) < 0 then "-" else "") ++
      Nat.repr ((round (q * 100)).natAbs / 100) ++ "." ++
      (if (round (q * 100)).natAbs % 100 < 10 then "0" else "") ++
      Nat.repr ((round (q * 100)).natAbs % 100)

/-! ## PDF document model and the merge engine

`mergePDFs` (reportUtils.js lines 96-123) reads two files, parses both
with `PDFDocument.load`, creates an empty output document, copies all
pages of the first document, then copies the pages of the second
document (dropping index 0 from `getPageIndices()` via `slice(1)` when
`skipFirstPage` is set), appending each copied page in order. A parse
failure of either input lands in the catch block, which rethrows
`Error("Failed to merge PDFs")`.

A byte stream is modelled by whether it parses and, if so, by the page
list it denotes; pages are drawn from an arbitrary type `α` so that the
theorems quantify over page content. -/

/-- A PDF byte stream: either parseable with a definite page list, or
not parseable (pdf-lib `load` rejects it). -/
inductive PdfBytes (α : Type) where
  | valid (pages : List α)
  | invalid
deriving DecidableEq, Repr

/-- An in-memory pdf-lib document: its ordered page list. -/
structure PDFDoc (α : Type) where
  pages : List α
deriving DecidableEq, Repr

/-- pdf-lib `PDFDocument.load`: parse a byte stream or fail. -/
def PDFDoc.load {α : Type} : PdfBytes α → Option (PDFDoc α)
  | .valid pages => some { pages := pages }
  | .invalid => none

/-- pdf-lib `getPageIndices()`: the list `[0, ..., pageCount - 1]`. -/
def PDFDoc.getPageIndices {α : Type} (d : PDFDoc α) : List Nat :=
  List.range d.pages.length

/-- pdf-lib `copyPages(doc, indices)`: the pages of `doc` at the given
indices (indices out of range yield nothing; the source only ever
passes in-range indices). -/
def PDFDoc.copyPages {α : Type} (d : PDFDoc α) (indices : List Nat) : List α :=
  indices.filterMap (fun i => d.pages.get? i)

/-- `mergePDFs(existingDocPath, pdfToMergePath, skipFirstPage)`
(reportUtils.js lines 96-123), with the two file reads abstracted into
the two byte-stream arguments. The catch block turns any load failure
into the thrown `Error("Failed to merge PDFs")`. -/
def mergePDFs {α : Type} (existingDocBytes pdfBytes2 : PdfBytes α)
    (skipFirstPage : Bool) : Except String (PDFDoc α) :=
  match PDFDoc.load existingDocBytes, PDFDoc.load pdfBytes2 with
  | some pdfDoc1, some pdfDoc2 =>
      let pages1 := pdfDoc1.copyPages pdfDoc1.getPageIndices
      let pageIndices :=
        if skipFirstPage then pdfDoc2.getPageIndices.drop 1
        else pdfDoc2.getPageIndices
      let pages2 := pdfDoc2.copyPages pageIndices
      .ok { pages := pages1 ++ pages2 }
  | _, _ => .error "Failed to merge PDFs"

/-- Copying a document at all of its own page indices reproduces its
page list. -/
theorem copyPages_range (α : Type) (l : List α) :
    List.filterMap (fun i => l.get? i) (List.range l.length) = l := by
  induction l with
  | nil => rfl
  | cons x xs ih =>
      have h2 : ((fun i => (x :: xs).get? i) ∘ Nat.succ) = (fun i => xs.get? i) := by
        funext i
        rfl
      have h0 : List.filterMap (fun i => (x :: xs).get? i)
          (0 :: List.map Nat.succ (List.range xs.length))
          = x :: List.filterMap (fun i => (x :: xs).get? i)
              (List.map Nat.succ (List.range xs.length)) := rfl
      rw [List.length_cons, List.range_succ_eq_map, h0,
        List.filterMap_map, h2, ih]

/-- Copying at the page indices with the first dropped reproduces the
tail of the page list. -/
theorem copyPages_range_drop_one (α : Type) (l : List α) :
    List.filterMap (fun i => l.get? i) ((List.range l.length).drop 1) = l.drop 1 := by
  cases l with
  | nil => rfl
  | cons x xs =>
      have h2 : ((fun i => (x :: xs).get? i) ∘ Nat.succ) = (fun i => xs.get? i) := by
        funext i
        rfl
      rw [List.length_cons, List.range_succ_eq_map, List.drop_succ_cons,
        List.drop_zero, List.filterMap_map, h2, List.drop_succ_cons,
        List.drop_zero, copyPages_range α xs]

/-- Evaluation of `mergePDFs` on two parseable inputs: the output page
list is the first page list followed by the (optionally beheaded)
second page list. -/
theorem mergePDFs_valid (α : Type) (pa pb : List α) (skipFirstPage : Bool) :
    mergePDFs (PdfBytes.valid pa) (PdfBytes.valid pb) skipFirstPage
      = Except.ok { pages := pa ++ (if skipFirstPage then pb.drop 1 else pb) } := by
  cases skipFirstPage with
  | false =>
      show (Except.ok { pages := List.filterMap (fun i => pa.get? i) (List.range pa.length)
            ++ List.filterMap (fun i => pb.get? i) (List.range pb.length) }
          : Except String (PDFDoc α))
        = Except.ok { pages := pa ++ pb }
      rw [copyPages_range, copyPages_range]
  | true =>
      show (Except.ok { pages := List.filterMap (fun i => pa.get? i) (List.range pa.length)
            ++ List.filterMap (fun i => pb.get? i) ((List.range pb.length).drop 1) }
          : Except String (PDFDoc α))
        = Except.ok { pages := pa ++ pb.drop 1 }
      rw [copyPages_range, copyPages_range_drop_one]

/-- C1: for every pair of parseable input documents and any value of
the skip flag, `mergePDFs` returns a new document whose page list is
exactly the pages of the first input in order followed by the pages of
the second input in order, omitting page index 0 of the second input
when the flag is set; the page count is the sum of the two counts, less
one in skip mode (when the second document has a page to skip). -/
theorem C1_merge_pages (α : Type) (pa pb : List α) (skipFirstPage : Bool) :
    ∃ d : PDFDoc α,
      mergePDFs (PdfBytes.valid pa) (PdfBytes.valid pb) skipFirstPage = Except.ok d
      ∧ d.pages = pa ++ (if skipFirstPage then pb.drop 1 else pb)
      ∧ (skipFirstPage = false → d.pages.length = pa.length + pb.length)
      ∧ (skipFirstPage = true → pb ≠ [] →
          d.pages.length = pa.length + pb.length - 1) := by
  refine ⟨{ pages := pa ++ (if skipFirstPage then pb.drop 1 else pb) }, ?_, rfl, ?_, ?_⟩
  · exact mergePDFs_valid α pa pb skipFirstPage
  · intro h
    subst h
    have hif : (if (false : Bool) = true then pb.drop 1 else pb) = pb := if_neg (by decide)
    rw [hif, List.length_append]
  · intro h hne
    subst h
    have hpos : 0 < pb.length := List.length_pos.mpr hne
    have hif : (if (true : Bool) = true then pb.drop 1 else pb) = pb.drop 1 := if_pos rfl
    rw [hif, List.length_append, List.length_drop]
    omega

/-- Witness for C1: merging a 2-page document with a 3-page document in
skip mode yields the 4 pages [1, 2, 4, 5]. -/
theorem C1_merge_pages_witness :
    ∃ d : PDFDoc Nat,
      mergePDFs (PdfBytes.valid [1, 2]) (PdfBytes.valid [3, 4, 5]) true = Except.ok d
      ∧ d.pages = [1, 2, 4, 5]
      ∧ d.pages.length = 2 + 3 - 1 := by
  obtain ⟨d, h1, h2, _, h4⟩ := C1_merge_pages Nat [1, 2] [3, 4, 5] true
  refine ⟨d, h1, by rw [h2]; rfl, ?_⟩
  simpa using h4 rfl (by decide)

/-! ## The orchestrator: the final merge and save (main.js)

`generateReport` (main.js lines 58-211) sequences the page builders,
the annotator and two merges. The first merge try-block (lines
114-125) declares `const mergedPdfDoc` and `const mergedPdfBytes`;
being `const`, both are scoped to that block alone. The final
try-block (lines 187-205) merges plag.pdf and part2.pdf into
`finalMergedPdfDoc`, computes `finalMergedPdfBytes`, and then executes
`fs.promises.writeFile(finalReportPath, mergedPdfBytes)` at line 195,
naming the identifier `mergedPdfBytes` from the earlier, closed
block. -/

/-- Serialized document bytes, abstracted. -/
abbrev Bytes := List Nat

/-- pdf-lib `save()`: serialize a document to bytes. The model keeps
the page list itself as the serialization, which is injective and is
all the orchestration claims depend on. -/
def PDFDoc.save (d : PDFDoc Nat) : Bytes := d.pages

/-- The identifiers in scope at main.js line 195 (the write of
MergedFinalReport.pdf), transcribed from the source: the module-level
requires and constants, the two parameters of `generateReport`, the
declarations of the outer try-block body (lines 59-206), and the
declarations of the enclosing try-block (lines 187-205). The constants
`mergedPdfDoc` and `mergedPdfBytes` of lines 117-118 are block-scoped
to the try-block at lines 114-125 and are therefore absent here. -/
def scopeAtFinalWrite : List String :=
  ["axios", "path", "PDFDocument", "rgb", "fs",
   "mergePDFs", "addHeaderAndFooterToExistingPDF", "coverpage",
   "PlagiarismdetailedAnalysisPage", "AiAnalysisPage",
   "BASE_DIR", "REPORTS_DIR",
   "generateReport", "waitForFiles", "generateReportAfterExport",
   "req", "res",
   "userId", "scanId", "folderPath", "jsonFilePath", "jsonData", "data",
   "doc", "existingPdfPath", "pdfToMergePath", "inputPdfPath",
   "outputPdfPath", "headerImagePath", "footerImagePath", "footerLink",
   "aiJsonFilepath", "aiValueFilepath", "aijsonData", "aidata",
   "aivalueJsonData", "aivalueData", "doc2",
   "finalMergedPdfDoc", "finalMergedPdfBytes", "finalReportPath"]

/-- Resolution of an identifier against the scope chain: a name not
declared in any enclosing scope raises a ReferenceError when read
(JavaScript `const` and `let` are block-scoped). `env` supplies the
runtime value of the byte-valued variables that are in scope. -/
def resolveIdent (scope : List String) (env : String → Bytes) (x : String) :
    Except String Bytes :=
  if x ∈ scope then .ok (env x) else .error (x ++ " is not defined")

/-- Result of the final try-block of `generateReport`: the HTTP status
sent and the files written by the block. -/
structure FinalStepResult where
  status : Nat
  writes : List (String × Bytes)
deriving DecidableEq, Repr

/-- The final try-block of `generateReport` (main.js lines 187-205):
merge plag.pdf and part2.pdf without skipping, save the merged
document into `finalMergedPdfBytes`, then write MergedFinalReport.pdf
with the value of the identifier `mergedPdfBytes` (line 195). An
exception thrown anywhere in the block lands in the catch at lines
202-205, which responds with status 500 and writes nothing. -/
def generateReportFinalMerge (plagBytes part2Bytes : PdfBytes Nat) : FinalStepResult :=
  match mergePDFs plagBytes part2Bytes false with
  | .error _ => { status := 500, writes := [] }
  | .ok finalMergedPdfDoc =>
      let finalMergedPdfBytes := finalMergedPdfDoc.save
      let env : String → Bytes := fun x =>
        if x = "finalMergedPdfBytes" then finalMergedPdfBytes else []
      match resolveIdent scopeAtFinalWrite env "mergedPdfBytes" with
      | .error _ => { status := 500, writes := [] }
      | .ok bytes => { status := 200, writes := [("MergedFinalReport.pdf", bytes)] }

/-- C2 counterexample: with two concrete parseable inputs the final
merge itself succeeds, yet the block writes no file at all (and sends
status 500): in particular the bytes written to MergedFinalReport.pdf
are not the bytes of the first merge, because the write of line 195
reads `mergedPdfBytes` outside the block that declared it and throws a
ReferenceError. -/
theorem C2_counterexample :
    mergePDFs (PdfBytes.valid [10, 11]) (PdfBytes.valid [20]) false
      = Except.ok { pages := [10, 11, 20] }
    ∧ generateReportFinalMerge (PdfBytes.valid [10, 11]) (PdfBytes.valid [20])
      = { status := 500, writes := [] } := by
  exact ⟨rfl, rfl⟩

/-- C2 amended: whenever the final merge of plag.pdf and part2.pdf
succeeds, `generateReport` still writes nothing to
MergedFinalReport.pdf and answers 500, because the identifier
`mergedPdfBytes` named at main.js line 195 is not in scope there (it
is a `const` of the closed try-block at lines 114-125). -/
theorem C2_amended_no_final_write (plagBytes part2Bytes : PdfBytes Nat)
    (d : PDFDoc Nat) (hmerge : mergePDFs plagBytes part2Bytes false = Except.ok d) :
    "mergedPdfBytes" ∉ scopeAtFinalWrite
    ∧ generateReportFinalMerge plagBytes part2Bytes = { status := 500, writes := [] } := by
  constructor
  · decide
  · unfold generateReportFinalMerge
    rw [hmerge]
    rfl

/-- Witness for the amended C2 at concrete one-page inputs. -/
theorem C2_amended_no_final_write_witness :
    "mergedPdfBytes" ∉ scopeAtFinalWrite
    ∧ generateReportFinalMerge (PdfBytes.valid [7]) (PdfBytes.valid [8])
      = { status := 500, writes := [] } :=
  C2_amended_no_final_write (PdfBytes.valid [7]) (PdfBytes.valid [8])
    { pages := [7, 8] } rfl

/-! ## AI analysis page: percentage computations

`AiAnalysisPage` (reportUtils.js lines 807-1318) computes, at lines
866-901: `wordLengthsSum` as a reduce over
`aidata.explain.patterns.text.words.lengths`, `totalWords` as
`aidata.results[0].matches[0].text.words.lengths[0]`, then
`percentage = (wordLengthsSum / totalWords) * 100`,
`humanTextPercentage = 100 - percentage` and
`humanWords = totalWords - wordLengthsSum`, rendering
`percentage.toFixed(2)` and `humanTextPercentage.toFixed(2)`.
The lengths and the total arrive as JSON numbers, modelled as exact
rationals. -/

/-- reportUtils.js line 868: the reduce
`lengths.reduce((sum, length) => sum + length, 0)`. -/
def wordLengthsSum (lengths : List ℚ) : ℚ :=
  lengths.foldl (fun sum len => sum + len) 0

/-- reportUtils.js line 872: `(wordLengthsSum / totalWords) * 100` with
JavaScript division semantics; the source has no guard for a zero
`totalWords`. -/
def percentage (lengths : List ℚ) (totalWords : ℚ) : JsNum :=
  jsMul (jsDiv (.num (wordLengthsSum lengths)) (.num totalWords)) (.num 100)

/-- reportUtils.js line 877: `100 - percentage`. -/
def humanTextPercentage (lengths : List ℚ) (totalWords : ℚ) : JsNum :=
  jsSub (.num 100) (percentage lengths totalWords)

/-- reportUtils.js line 878: `totalWords - wordLengthsSum`. -/
def humanWords (lengths : List ℚ) (totalWords : ℚ) : ℚ :=
  totalWords - wordLengthsSum lengths

/-- reportUtils.js line 889: the AI percentage as rendered into the
page, `percentage.toFixed(2)` (followed by a percent sign). -/
def aiPercentageText (lengths : List ℚ) (totalWords : ℚ) : String :=
  jsToFixed2 (percentage lengths totalWords)

/-- The reduce of line 868 agrees with the list sum. -/
theorem wordLengthsSum_eq_sum (lengths : List ℚ) :
    wordLengthsSum lengths = lengths.sum := by
  have aux : ∀ (l : List ℚ) (a : ℚ), l.foldl (fun sum len => sum + len) a = a + l.sum := by
    intro l
    induction l with
    | nil => intro a; simp
    | cons x xs ih =>
        intro a
        simp only [List.foldl_cons, List.sum_cons, ih, add_assoc]
  simpa using aux lengths 0

/-- C3: the code path is unguarded. With `lengths = [3, 2]` and
`totalWords = 0` the computed AI percentage is `Infinity` (silently
propagated), not the guarded `0` the specification requires; the page
renders the text "Infinity" for the AI percentage and the human
percentage becomes `-Infinity`. -/
theorem C3_totalWords_zero_unguarded :
    percentage [3, 2] 0 = JsNum.posInf
    ∧ percentage [3, 2] 0 ≠ JsNum.num 0
    ∧ aiPercentageText [3, 2] 0 = "Infinity"
    ∧ humanTextPercentage [3, 2] 0 = JsNum.negInf := by
  have hsum : wordLengthsSum [3, 2] = 5 := by norm_num [wordLengthsSum]
  have hdiv : jsDiv (JsNum.num 5) (JsNum.num 0) = JsNum.posInf := by
    norm_num [jsDiv]
  have hmul : jsMul JsNum.posInf (JsNum.num 100) = JsNum.posInf := by
    norm_num [jsMul]
  have hpct : percentage [3, 2] 0 = JsNum.posInf := by
    unfold percentage
    rw [hsum, hdiv, hmul]
  refine ⟨hpct, ?_, ?_, ?_⟩
  · rw [hpct]
    intro hcontra
    exact JsNum.noConfusion hcontra
  · unfold aiPercentageText
    rw [hpct]
    rfl
  · unfold humanTextPercentage
    rw [hpct]
    rfl

/-- C4: for every input with nonzero `totalWords` the computed values
agree with the specification formulas
`aiPercentage = sum(lengths) / totalWords * 100`,
`humanWords = totalWords - sum(lengths)` and
`humanPercentage = 100 - aiPercentage`; in particular for
`lengths = [3, 2]` and `totalWords = 10` the page renders "50.00" and
5 human words. -/
theorem C4_percentages (lengths : List ℚ) (totalWords : ℚ)
    (h : totalWords ≠ 0) :
    percentage lengths totalWords = JsNum.num (lengths.sum / totalWords * 100)
    ∧ humanWords lengths totalWords = totalWords - lengths.sum
    ∧ humanTextPercentage lengths totalWords
        = JsNum.num (100 - lengths.sum / totalWords * 100)
    ∧ aiPercentageText [3, 2] 10 = "50.00"
    ∧ humanWords [3, 2] 10 = 5 := by
  have hp : percentage lengths totalWords
      = JsNum.num (lengths.sum / totalWords * 100) := by
    unfold percentage
    rw [wordLengthsSum_eq_sum]
    have hdiv : jsDiv (JsNum.num lengths.sum) (JsNum.num totalWords)
        = JsNum.num (lengths.sum / totalWords) := by
      simp [jsDiv, h]
    rw [hdiv]
    rfl
  have hsum : wordLengthsSum [3, 2] = 5 := by norm_num [wordLengthsSum]
  have hpct50 : percentage [3, 2] 10 = JsNum.num 50 := by
    unfold percentage
    rw [hsum]
    have hdiv : jsDiv (JsNum.num 5) (JsNum.num 10) = JsNum.num (1 / 2) := by
      norm_num [jsDiv]
    have hmul : jsMul (JsNum.num (1 / 2)) (JsNum.num 100) = JsNum.num 50 := by
      norm_num [jsMul]
    rw [hdiv, hmul]
  have hround : round ((50 : ℚ) * 100) = (5000 : ℤ) := by
    norm_num [round_eq]
  refine ⟨hp, ?_, ?_, ?_, ?_⟩
  · unfold humanWords
    rw [wordLengthsSum_eq_sum]
  · unfold humanTextPercentage
    rw [hp]
    rfl
  · unfold aiPercentageText
    rw [hpct50]
    simp only [jsToFixed2, hround]
    rfl
  · unfold humanWords
    rw [hsum]
    norm_num

/-- Witness for C4 at `lengths = [3, 2]`, `totalWords = 10`. -/
theorem C4_percentages_witness :
    percentage [3, 2] 10 = JsNum.num (([3, 2] : List ℚ).sum / 10 * 100)
    ∧ humanWords [3, 2] 10 = 10 - ([3, 2] : List ℚ).sum
    ∧ humanTextPercentage [3, 2] 10
        = JsNum.num (100 - ([3, 2] : List ℚ).sum / 10 * 100)
    ∧ aiPercentageText [3, 2] 10 = "50.00"
    ∧ humanWords [3, 2] 10 = 5 :=
  C4_percentages [3, 2] 10 (by norm_num)

/-! ## AI analysis page: phrase ratios and the descending sort

Lines 1153-1177 of reportUtils.js build, for each span `i`,
`phrase = text.slice(startIndex, startIndex + lengths[i]).join(" ")`
and `aiPercentage = Math.round(aiCounts[i] / humanCounts[i])`
(the identifier says percentage but the rendered label is a ratio,
`aiPercentage + "X"`), then sort
`data.sort((a, b) => b.aiPercentage - a.aiPercentage)`, i.e. in
descending ratio order. There is no divide-by-zero guard in the
source.

Array indexing is modelled by `jsIndexNum`: a JavaScript read past the
end of an array yields `undefined`, and `undefined` entering arithmetic
yields `NaN`. `Array.prototype.sort` is stable and, for a consistent
comparator, produces the unique stably sorted order; the comparator
`b - a` is consistent exactly when every key is a finite number, which
is the hypothesis under which the sortedness theorem is stated (an
inconsistent comparator makes the result implementation-defined). The
stable order for this comparator places an element before the first
element of strictly smaller key, which is what `List.insertionSort`
with the strict relation below computes. -/

/-- Array read `l[i]` followed by use in arithmetic: out of range gives
`undefined`, which behaves as `NaN` numerically. -/
def jsIndexNum (l : List ℚ) (i : Nat) : JsNum :=
  match l.get? i with
  | some q => .num q
  | none => .nan

/-- `Array.prototype.slice(a, b)` for nonnegative integer arguments:
the elements at indices `a ≤ i < b`, tolerating out-of-range values. -/
def jsSlice {α : Type} (xs : List α) (a b : Nat) : List α :=
  (xs.drop a).take (b - a)

/-- One element of the `data` array built at lines 1164-1174. -/
structure PhraseEntry where
  phrase : String
  aiPercentage : JsNum
  aiText : String
  humanText : String
deriving DecidableEq, Repr

/-- The callback body of `starts.map((startIndex, i) => ...)` at lines
1164-1174: `i` is the position, `startIndex` the element. `join(" ")`
is `String.intercalate " "`. (A JS read `lengths[i]` past the end
would make the slice bound `NaN`, which slices to the empty array,
exactly as `getD i 0` does here.) -/
def buildPhraseEntry (text : List String) (lengths : List Nat)
    (aiCounts humanCounts : List ℚ) (i startIndex : Nat) : PhraseEntry :=
  { phrase := String.intercalate " "
      (jsSlice text startIndex (startIndex + lengths.getD i 0)),
    aiPercentage := jsRound (jsDiv (jsIndexNum aiCounts i) (jsIndexNum humanCounts i)),
    aiText := jsToFixed2 (jsIndexNum aiCounts i),
    humanText := jsToFixed2 (jsIndexNum humanCounts i) }

/-- The `data` array of line 1164: `starts.map((startIndex, i) => ...)`. -/
def buildPhraseData (text : List String) (starts lengths : List Nat)
    (aiCounts humanCounts : List ℚ) : List PhraseEntry :=
  starts.enum.map (fun p => buildPhraseEntry text lengths aiCounts humanCounts p.1 p.2)

/-- Line 1177: `data.sort((a, b) => b.aiPercentage - a.aiPercentage)`,
as the stable sort that places each element before the first element
with strictly smaller key. -/
def sortPhrases (data : List PhraseEntry) : List PhraseEntry :=
  List.insertionSort (fun a b => jsLtB b.aiPercentage a.aiPercentage = true) data

/-- A phrase list laid out in descending ratio order: no element is
followed by one with a strictly larger ratio (JS comparison, so `NaN`
never compares smaller). -/
def sortedDescByRatio (l : List PhraseEntry) : Prop :=
  l.Pairwise (fun a b => jsLtB a.aiPercentage b.aiPercentage = false)

/-- Comparison of two finite JS numbers is the rational order. -/
theorem jsLtB_num_iff (p q : ℚ) :
    jsLtB (JsNum.num p) (JsNum.num q) = true ↔ p < q := by
  simp [jsLtB]

/-- Negated comparison of two finite JS numbers. -/
theorem jsLtB_num_false_iff (p q : ℚ) :
    jsLtB (JsNum.num p) (JsNum.num q) = false ↔ ¬p < q := by
  simp [jsLtB]

/-- Inserting an element with a finite key into a descending list of
finite keys keeps the list descending. -/
theorem orderedInsert_sortedDesc (x : PhraseEntry)
    (hx : ∃ q, x.aiPercentage = JsNum.num q) :
    ∀ l : List PhraseEntry, (∀ e ∈ l, ∃ q, e.aiPercentage = JsNum.num q) →
      sortedDescByRatio l →
      sortedDescByRatio
        (List.orderedInsert (fun a b => jsLtB b.aiPercentage a.aiPercentage = true) x l) := by
  intro l
  induction l with
  | nil =>
      intro _ _
      simp [List.orderedInsert, sortedDescByRatio]
  | cons y ys ih =>
      intro hl hp
      obtain ⟨qx, hqx⟩ := hx
      obtain ⟨qy, hqy⟩ := hl y (List.mem_cons_self y ys)
      rw [sortedDescByRatio, List.pairwise_cons] at hp
      obtain ⟨hyz, hys⟩ := hp
      simp only [List.orderedInsert]
      rcases Bool.eq_false_or_eq_true (jsLtB y.aiPercentage x.aiPercentage) with hB | hB
      · rw [if_pos hB]
        have hyx : qy < qx := by
          rw [hqx, hqy, jsLtB_num_iff] at hB
          exact hB
        rw [sortedDescByRatio, List.pairwise_cons]
        constructor
        · intro z hz
          rcases List.mem_cons.mp hz with hzy | hzys
          · subst hzy
            rw [hqx, hqy, jsLtB_num_false_iff]
            exact not_lt.mpr (le_of_lt hyx)
          · obtain ⟨qz, hqz⟩ := hl z (List.mem_cons_of_mem y hzys)
            have hzy := hyz z hzys
            rw [hqy, hqz, jsLtB_num_false_iff] at hzy
            rw [hqx, hqz, jsLtB_num_false_iff]
            have hzq : qz ≤ qy := not_lt.mp hzy
            exact not_lt.mpr (le_of_lt (lt_of_le_of_lt hzq hyx))
        · exact List.pairwise_cons.mpr ⟨hyz, hys⟩
      · rw [if_neg (by simp [hB])]
        have hxy : qx ≤ qy := by
          rw [hqx, hqy, jsLtB_num_false_iff] at hB
          exact not_lt.mp hB
        rw [sortedDescByRatio, List.pairwise_cons]
        constructor
        · intro z hz
          rcases (List.mem_orderedInsert _).mp hz with hzx | hzys
          · subst hzx
            rw [hqx, hqy, jsLtB_num_false_iff]
            exact not_lt.mpr hxy
          · exact hyz z hzys
        · exact ih (fun e he => hl e (List.mem_cons_of_mem y he)) hys

/-- When every ratio key is finite, the sort of line 1177 produces a
descending list. -/
theorem sortPhrases_sortedDesc (l : List PhraseEntry)
    (hl : ∀ e ∈ l, ∃ q, e.aiPercentage = JsNum.num q) :
    sortedDescByRatio (sortPhrases l) := by
  induction l with
  | nil =>
      simp [sortPhrases, sortedDescByRatio]
  | cons x xs ih =>
      have hx := hl x (List.mem_cons_self x xs)
      have hxs : ∀ e ∈ xs, ∃ q, e.aiPercentage = JsNum.num q :=
        fun e he => hl e (List.mem_cons_of_mem x he)
      have hmem : ∀ e ∈ List.insertionSort
          (fun a b => jsLtB b.aiPercentage a.aiPercentage = true) xs,
          ∃ q, e.aiPercentage = JsNum.num q := by
        intro e he
        exact hxs e ((List.mem_insertionSort _).mp he)
      exact orderedInsert_sortedDesc x hx _ hmem (ih hxs)

/-- Reading an in-range index gives the finite element. -/
theorem jsIndexNum_eq (l : List ℚ) (i : Nat) (a : ℚ) (h : l.get? i = some a) :
    jsIndexNum l i = JsNum.num a := by
  unfold jsIndexNum
  rw [h]

/-- Division of finite JS numbers with a nonzero divisor is exact. -/
theorem jsDiv_num_of_ne (a b : ℚ) (hb : b ≠ 0) :
    jsDiv (JsNum.num a) (JsNum.num b) = JsNum.num (a / b) := by
  simp [jsDiv, hb]

/-- C5 counterexample: on the span with `aiCount = 1` and
`humanCount = 0` the computed ratio is `Infinity`, not the guarded `0`
the claim states: there is no divide-by-zero guard at reportUtils.js
line 1166. -/
theorem C5_counterexample :
    (buildPhraseData ["hello"] [0] [1] [1] [0]).map PhraseEntry.aiPercentage
      = [JsNum.posInf]
    ∧ JsNum.posInf ≠ JsNum.num 0 := by
  constructor
  · have hdiv : jsDiv (JsNum.num 1) (JsNum.num 0) = JsNum.posInf := by
      norm_num [jsDiv]
    show [jsRound (jsDiv (jsIndexNum [1] 0) (jsIndexNum [0] 0))] = [JsNum.posInf]
    have h1 : jsIndexNum [(1 : ℚ)] 0 = JsNum.num 1 := rfl
    have h0 : jsIndexNum [(0 : ℚ)] 0 = JsNum.num 0 := rfl
    rw [h1, h0, hdiv]
    rfl
  · intro hcontra
    exact JsNum.noConfusion hcontra

/-- C5 amended: the ratio of span `i` is
`Math.round(aiCount[i] / humanCount[i])` with JavaScript division and
no divide-by-zero guard (a zero `humanCount[i]` produces `Infinity`,
`-Infinity` or `NaN`, never a guarded 0); when every `humanCount` is
nonzero the builder lays the spans out as a permutation of the entries
sorted in descending order of that ratio. -/
theorem C5_ratio_unguarded_sort_desc (text : List String)
    (starts lengths : List Nat) (aiCounts humanCounts : List ℚ)
    (hnz : ∀ q ∈ humanCounts, q ≠ 0)
    (hai : starts.length ≤ aiCounts.length)
    (hhc : starts.length ≤ humanCounts.length) :
    (∀ (i : Nat) (a b : ℚ), i < starts.length →
      aiCounts.get? i = some a → humanCounts.get? i = some b →
      ((buildPhraseData text starts lengths aiCounts humanCounts).get? i).map
          PhraseEntry.aiPercentage = some (JsNum.num (round (a / b))))
    ∧ List.Perm (sortPhrases (buildPhraseData text starts lengths aiCounts humanCounts))
        (buildPhraseData text starts lengths aiCounts humanCounts)
    ∧ sortedDescByRatio
        (sortPhrases (buildPhraseData text starts lengths aiCounts humanCounts)) := by
  refine ⟨?_, List.perm_insertionSort _ _, ?_⟩
  · intro i a b hi ha hb
    have hb0 : b ≠ 0 := hnz b (List.get?_mem hb)
    have hstart : starts.get? i = some (starts.get ⟨i, hi⟩) := List.get?_eq_get hi
    unfold buildPhraseData
    rw [List.get?_map, List.get?_enum, hstart]
    show some (buildPhraseEntry text lengths aiCounts humanCounts i
        (starts.get ⟨i, hi⟩)).aiPercentage = _
    show some (jsRound (jsDiv (jsIndexNum aiCounts i) (jsIndexNum humanCounts i))) = _
    rw [jsIndexNum_eq aiCounts i a ha, jsIndexNum_eq humanCounts i b hb,
      jsDiv_num_of_ne a b hb0]
    rfl
  · apply sortPhrases_sortedDesc
    intro e he
    obtain ⟨p, hpmem, hpe⟩ := List.mem_map.mp he
    have hgp : starts.get? p.1 = some p.2 := List.mem_enum_iff_get?.mp hpmem
    have hip : p.1 < starts.length := by
      rcases List.get?_eq_some.mp hgp with ⟨hlt, _⟩
      exact hlt
    have hia : p.1 < aiCounts.length := lt_of_lt_of_le hip hai
    have hih : p.1 < humanCounts.length := lt_of_lt_of_le hip hhc
    have ha : aiCounts.get? p.1 = some (aiCounts.get ⟨p.1, hia⟩) := List.get?_eq_get hia
    have hb : humanCounts.get? p.1 = some (humanCounts.get ⟨p.1, hih⟩) := List.get?_eq_get hih
    have hb0 : humanCounts.get ⟨p.1, hih⟩ ≠ 0 := hnz _ (List.get?_mem hb)
    refine ⟨round (aiCounts.get ⟨p.1, hia⟩ / humanCounts.get ⟨p.1, hih⟩), ?_⟩
    rw [← hpe]
    show (jsRound (jsDiv (jsIndexNum aiCounts p.1) (jsIndexNum humanCounts p.1))) = _
    rw [jsIndexNum_eq _ _ _ ha, jsIndexNum_eq _ _ _ hb, jsDiv_num_of_ne _ _ hb0]
    rfl

/-- Witness for the amended C5 on concrete data: spans [0, 1] with
counts ai = [1, 3], human = [2, 1]. -/
theorem C5_ratio_unguarded_sort_desc_witness :
    ((buildPhraseData ["a", "b"] [0, 1] [1, 1] [1, 3] [2, 1]).get? 0).map
        PhraseEntry.aiPercentage = some (JsNum.num (round ((1 : ℚ) / 2)))
    ∧ List.Perm (sortPhrases (buildPhraseData ["a", "b"] [0, 1] [1, 1] [1, 3] [2, 1]))
        (buildPhraseData ["a", "b"] [0, 1] [1, 1] [1, 3] [2, 1])
    ∧ sortedDescByRatio
        (sortPhrases (buildPhraseData ["a", "b"] [0, 1] [1, 1] [1, 3] [2, 1])) := by
  obtain ⟨h1, h2, h3⟩ := C5_ratio_unguarded_sort_desc ["a", "b"] [0, 1] [1, 1] [1, 3] [2, 1]
    (by norm_num [List.forall_mem_cons]) (by decide) (by decide)
  exact ⟨h1 0 1 2 (by decide) rfl rfl, h2, h3⟩

/-! ## Score arc renderer (`drawPlagiarismCircle`, reportUtils.js 19-50)

The renderer computes `startAngle = -Math.PI / 2`,
`endAngle = startAngle + 2π(score/100)`, fixes `segments = 100` and
`angleIncrement = (endAngle - startAngle) / segments`, then loops 100
times emitting one straight line per step between the points at the
current and the incremented angle. Every angle formed is a rational
multiple of π, so the model tracks the coefficient of π exactly; the
drawn endpoint for coefficient `a` is `(x + r·cos aπ, y + r·sin aπ)`,
hence a segment whose two coefficients agree has zero length. In
degrees a coefficient `a` is the angle `a · 180`. Division on `ℚ` is
total; the divisions the source performs are by the nonzero constants
100 (score scaling) and `segments = 100`. -/

/-- One polyline segment of the arc: the π-coefficients of its two
endpoint angles. -/
structure ArcSeg where
  a1 : ℚ
  a2 : ℚ
deriving DecidableEq, Repr

/-- The loop of lines 36-43: from the running `angle`, draw `n`
segments, each advancing the angle by `angleIncrement`. -/
def arcSegmentsLoop (angle angleIncrement : ℚ) : Nat → List ArcSeg
  | 0 => []
  | n + 1 =>
      { a1 := angle, a2 := angle + angleIncrement }
        :: arcSegmentsLoop (angle + angleIncrement) angleIncrement n

/-- `drawPlagiarismCircle` restricted to the arc segments it draws
(lines 19-43); the background circle and the centered text are
unconditional single draws and are not part of any claim. -/
def drawPlagiarismCircle (score : ℚ) : List ArcSeg :=
  let startAngle : ℚ := -(1 / 2)
  let endAngle : ℚ := startAngle + 2 * (score / 100)
  let segments : Nat := 100
  let angleIncrement : ℚ := (endAngle - startAngle) / (segments : ℚ)
  arcSegmentsLoop startAngle angleIncrement segments

/-- The loop emits exactly `n` segments. -/
theorem arcSegmentsLoop_length (angle inc : ℚ) :
    ∀ n : Nat, (arcSegmentsLoop angle inc n).length = n := by
  intro n
  induction n generalizing angle with
  | zero => rfl
  | succ m ih =>
      show (arcSegmentsLoop (angle + inc) inc m).length + 1 = m + 1
      rw [ih]

/-- Closed form of the loop: segment `k` spans the angles
`angle + k·inc` and `angle + (k+1)·inc`. -/
theorem arcSegmentsLoop_get (angle inc : ℚ) :
    ∀ n k : Nat, k < n →
      (arcSegmentsLoop angle inc n).get? k
        = some { a1 := angle + k * inc, a2 := angle + (k + 1) * inc } := by
  intro n
  induction n generalizing angle with
  | zero =>
      intro k hk
      exact absurd hk (Nat.not_lt_zero k)
  | succ m ih =>
      intro k hk
      cases k with
      | zero =>
          have hhead : (arcSegmentsLoop angle inc (m + 1)).get? 0
              = some ({ a1 := angle, a2 := angle + inc } : ArcSeg) := rfl
          rw [hhead, Option.some.injEq, ArcSeg.mk.injEq]
          constructor
          · push_cast
            ring
          · push_cast
            ring
      | succ j =>
          have hj : j < m := by omega
          show (arcSegmentsLoop (angle + inc) inc m).get? j = _
          rw [ih (angle + inc) j hj, Option.some.injEq, ArcSeg.mk.injEq]
          constructor
          · push_cast
            ring
          · push_cast
            ring

/-- C6: for every score in [0, 100] the renderer draws exactly 100
straight segments whose endpoint angles sweep linearly from -90
degrees to -90 + 360·(score/100) degrees (segment `k` spans the
fractions k/100 and (k+1)/100 of the arc); at score 0 every segment is
degenerate (zero drawn arc length), at score 100 the final endpoint is
one full revolution past the start, and the only divisors involved are
the nonzero constant 100. -/
theorem C6_arc_segments (score : ℚ) (hlo : 0 ≤ score) (hhi : score ≤ 100) :
    (drawPlagiarismCircle score).length = 100
    ∧ (∀ k : Nat, k < 100 →
        (drawPlagiarismCircle score).get? k
          = some { a1 := -(1 / 2) + 2 * (score / 100) * (k / 100),
                   a2 := -(1 / 2) + 2 * (score / 100) * ((k + 1) / 100) })
    ∧ (∀ k : Nat, k < 100 → ∀ s : ArcSeg,
        (drawPlagiarismCircle score).get? k = some s →
        s.a1 * 180 = -90 + 360 * (score / 100) * (k / 100)
          ∧ s.a2 * 180 = -90 + 360 * (score / 100) * ((k + 1) / 100))
    ∧ (score = 0 → ∀ s ∈ drawPlagiarismCircle score, s.a1 = s.a2)
    ∧ (score = 100 → ∀ s : ArcSeg,
        (drawPlagiarismCircle score).get? 99 = some s → s.a2 = -(1 / 2) + 2)
    ∧ (100 : ℚ) ≠ 0 := by
  have hloop : ∀ k : Nat, k < 100 →
      (drawPlagiarismCircle score).get? k
        = some { a1 := -(1 / 2) + 2 * (score / 100) * (k / 100),
                 a2 := -(1 / 2) + 2 * (score / 100) * ((k + 1) / 100) } := by
    intro k hk
    rw [show drawPlagiarismCircle score = arcSegmentsLoop (-(1 / 2))
        (((-(1 / 2) + 2 * (score / 100)) - (-(1 / 2))) / ((100 : Nat) : ℚ)) 100 from rfl]
    rw [arcSegmentsLoop_get _ _ 100 k hk, Option.some.injEq, ArcSeg.mk.injEq]
    constructor
    · push_cast
      ring
    · push_cast
      ring
  refine ⟨?_, hloop, ?_, ?_, ?_, by norm_num⟩
  · exact arcSegmentsLoop_length _ _ 100
  · intro k hk s hs
    rw [hloop k hk, Option.some.injEq] at hs
    rw [← hs]
    constructor
    · push_cast
      ring
    · push_cast
      ring
  · intro h0 s hs
    subst h0
    obtain ⟨n, hn⟩ := List.get?_of_mem hs
    have hlen : (drawPlagiarismCircle 0).length = 100 := arcSegmentsLoop_length _ _ 100
    have hlt : n < (drawPlagiarismCircle 0).length := (List.get?_eq_some.mp hn).1
    have hn100 : n < 100 := by omega
    rw [hloop n hn100, Option.some.injEq] at hn
    rw [← hn]
    show -(1 / 2) + 2 * ((0 : ℚ) / 100) * (n / 100)
        = -(1 / 2) + 2 * ((0 : ℚ) / 100) * ((n + 1) / 100)
    ring
  · intro h100 s hs
    subst h100
    rw [hloop 99 (by norm_num), Option.some.injEq] at hs
    rw [← hs]
    show -(1 / 2) + 2 * ((100 : ℚ) / 100) * ((((99 : Nat) : ℚ) + 1) / 100) = -(1 / 2) + 2
    norm_num

/-- Witness for C6 at score 50: hypotheses hold and the renderer draws
100 segments, the first spanning the angles at fractions 0 and 1/100. -/
theorem C6_arc_segments_witness :
    0 ≤ (50 : ℚ) ∧ (50 : ℚ) ≤ 100
    ∧ (drawPlagiarismCircle 50).length = 100
    ∧ (drawPlagiarismCircle 50).get? 0
        = some { a1 := -(1 / 2) + 2 * ((50 : ℚ) / 100) * (((0 : Nat) : ℚ) / 100),
                 a2 := -(1 / 2) + 2 * ((50 : ℚ) / 100) * ((((0 : Nat) : ℚ) + 1) / 100) } := by
  refine ⟨by norm_num, by norm_num, ?_, ?_⟩
  · exact (C6_arc_segments 50 (by norm_num) (by norm_num)).1
  · exact (C6_arc_segments 50 (by norm_num) (by norm_num)).2.1 0 (by norm_num)

/-! ## Linked text renderer (`addTextWithLink`, reportUtils.js 66-85) -/

/-- The jsPDF state the renderer consults: the page width
(`doc.internal.pageSize.width`) and the black-box text wrapper
(`doc.splitTextToSize`), which returns the wrapped lines of a string
for a given maximal width. -/
structure JsDoc where
  pageWidth : ℚ
  splitTextToSize : String → ℚ → List String

/-- `addTextWithLink(doc, text, linkText, x, y, linkColor, linkUrl,
div = 2)` (lines 66-85), restricted to the cursor it returns: wrap the
body to `pageWidth / div - 30`, advance the cursor by
`textLines.length * 4`, draw the link, advance by the fixed 6, return
the cursor. The color and URL arguments only affect drawing and are
omitted; `div` is passed explicitly (the source default is 2). -/
def addTextWithLink (doc : JsDoc) (text linkText : String) (x y : ℚ)
    (div : ℚ) : ℚ :=
  let maxWidth := doc.pageWidth / div - 30
  let textLines := doc.splitTextToSize text maxWidth
  let yAfterText := y + textLines.length * 4
  let yAfterLink := yAfterText + 6
  yAfterLink

/-- C7: the returned cursor is the input y plus lineCount times the
line height 4 plus the fixed link-row height 6; for a text wrapping to
3 lines this is the input y plus 18. -/
theorem C7_addTextWithLink_cursor (doc : JsDoc) (text linkText : String)
    (x y div : ℚ) :
    addTextWithLink doc text linkText x y div
      = y + (doc.splitTextToSize text (doc.pageWidth / div - 30)).length * 4 + 6
    ∧ ((doc.splitTextToSize text (doc.pageWidth / div - 30)).length = 3 →
        addTextWithLink doc text linkText x y div = y + 18) := by
  constructor
  · rfl
  · intro h3
    show y + ((doc.splitTextToSize text (doc.pageWidth / div - 30)).length : ℚ) * 4 + 6
        = y + 18
    rw [h3]
    norm_num
    ring

/-- A concrete jsPDF stand-in whose wrapper always produces 3 lines. -/
def sampleDoc : JsDoc :=
  { pageWidth := 210, splitTextToSize := fun _ _ => ["a", "b", "c"] }

/-- Witness for C7: on a 3-line wrap with input cursor 40 the renderer
returns 58. -/
theorem C7_addTextWithLink_cursor_witness :
    addTextWithLink sampleDoc "body" "Learn more" 10 40 2 = 40 + 18 :=
  (C7_addTextWithLink_cursor sampleDoc "body" "Learn more" 10 40 2).2 rfl

/-! ## Existing-PDF annotator
(`addHeaderAndFooterToExistingPDF`, reportUtils.js 137-239)

The function loads the input document, computes
`headerImageWidth = pdfDoc.getPage(0).getWidth()` (line 152; pdf-lib
`getPage` asserts the index is in range, so this throws on a document
with no pages), stamps the header image across the top of every page
(the vertical anchor uses each individual height, the width always the
width of page 0), stamps the footer image bottom-left on every page,
generates a temporary QR raster encoding
`http://.../user/scanreport/<interactivelink>` (lines 183-195, created
unconditionally), embeds the QR with a backing white rectangle onto
the page at index 1 only when `pages.length > 1` (lines 203-230),
saves the document (lines 232-234) and deletes the temporary raster
(line 238). File reads of the two image assets are assumed to
succeed; they do not depend on the document. -/

/-- A drawing stamped onto an annotated page. -/
inductive DrawOp where
  | image (name : String) (x y w h : ℚ)
  | rect (x y w h : ℚ)
deriving DecidableEq, Repr

/-- A page of the pre-built document: its size and the overlays drawn
onto it, in draw order. -/
structure AnnPage where
  width : ℚ
  height : ℚ
  ops : List DrawOp
deriving DecidableEq, Repr

/-- Result of a completed annotator run: the annotated pages, the
output save, and the deletion of the temporary QR raster. -/
structure AnnotateResult where
  pages : List AnnPage
  outputSaved : Bool
  qrTempFileDeleted : Bool
deriving DecidableEq, Repr

/-- Steps 2-3 (lines 150-165): the header image at x 0,
y `height - 130`, width the width of page 0, height 130. -/
def drawHeader (headerImageWidth : ℚ) (page : AnnPage) : AnnPage :=
  { page with ops := page.ops
      ++ [DrawOp.image "header" 0 (page.height - 130) headerImageWidth 130] }

/-- Steps 4-5 (lines 167-181): the footer image at the bottom left,
fixed size 100 by 50. -/
def drawFooter (page : AnnPage) : AnnPage :=
  { page with ops := page.ops ++ [DrawOp.image "footer" 0 0 100 50] }

/-- Step 8 (lines 203-230): the white backing rectangle and the QR
image in the top-right region, both sized 120 by 150 at
x `width - 120 - 5`, y `height - 130 - 150 - 405`; the image name
records the link encoded by the QR code of step 6. -/
def drawQr (interactivelink : String) (page : AnnPage) : AnnPage :=
  { page with ops := page.ops
      ++ [DrawOp.rect (page.width - 120 - 5) (page.height - 130 - 150 - 405) 120 150,
          DrawOp.image ("qr:" ++ interactivelink)
            (page.width - 120 - 5) (page.height - 130 - 150 - 405) 120 150] }

/-- The page transformations of the annotator (steps 3, 5 and 8):
header on every page (width taken from `page0Width`), footer on every
page, then the QR onto the page at index 1 when more than one page
exists. -/
def annotatePages (pages : List AnnPage) (page0Width : ℚ)
    (interactivelink : String) : List AnnPage :=
  let withHeader := pages.map (drawHeader page0Width)
  let withFooter := withHeader.map drawFooter
  if 1 < withFooter.length then
    match withFooter[1]? with
    | some secondPage => withFooter.set 1 (drawQr interactivelink secondPage)
    | none => withFooter
  else withFooter

/-- `addHeaderAndFooterToExistingPDF(inputPath, outputPath, ...,
interactivelink)` (lines 137-239), with the input document passed as
its page list. The width lookup of line 152 fails on an empty
document; otherwise the function completes: pages stamped, output
saved, temporary QR raster deleted. -/
def addHeaderAndFooterToExistingPDF (pages : List AnnPage)
    (interactivelink : String) : Except String AnnotateResult :=
  match pages.head? with
  | none => .error "getPage: index out of range"
  | some page0 =>
      .ok { pages := annotatePages pages page0.width interactivelink,
            outputSaved := true, qrTempFileDeleted := true }

/-- C8 counterexample: the claim quantifies over documents with one
page or fewer, but on a document with zero pages the annotator throws
at the header-width lookup `pdfDoc.getPage(0).getWidth()` (line 152)
instead of completing. -/
theorem C8_counterexample :
    addHeaderAndFooterToExistingPDF [] "scan1"
      = Except.error "getPage: index out of range" := rfl

/-- C8 amended: on a document with exactly one page the annotator
completes without error: the single page receives exactly the header
and the footer stamp (in particular no QR drawing), the output is
saved and the temporary QR file is deleted; on a document with zero
pages the function fails at the `getPage(0)` width lookup before any
stamping; and on a two-page document the QR (with its backing
rectangle) is embedded, onto the page at index 1. -/
theorem C8_one_page_completes (p a b : AnnPage) (link : String) :
    addHeaderAndFooterToExistingPDF [p] link
      = Except.ok { pages := [drawFooter (drawHeader p.width p)],
                    outputSaved := true, qrTempFileDeleted := true }
    ∧ (∀ op ∈ (drawFooter (drawHeader p.width p)).ops,
        op ∈ p.ops
          ∨ op = DrawOp.image "header" 0 (p.height - 130) p.width 130
          ∨ op = DrawOp.image "footer" 0 0 100 50)
    ∧ addHeaderAndFooterToExistingPDF [] link
        = Except.error "getPage: index out of range"
    ∧ addHeaderAndFooterToExistingPDF [a, b] link
        = Except.ok { pages := [drawFooter (drawHeader a.width a),
                                drawQr link (drawFooter (drawHeader a.width b))],
                      outputSaved := true, qrTempFileDeleted := true } := by
  refine ⟨rfl, ?_, rfl, rfl⟩
  intro op hop
  have hops : (drawFooter (drawHeader p.width p)).ops
      = (p.ops ++ [DrawOp.image "header" 0 (p.height - 130) p.width 130])
        ++ [DrawOp.image "footer" 0 0 100 50] := rfl
  rw [hops] at hop
  rcases List.mem_append.mp hop with hop1 | hop2
  · rcases List.mem_append.mp hop1 with hop3 | hop4
    · exact Or.inl hop3
    · exact Or.inr (Or.inl (List.mem_singleton.mp hop4))
  · exact Or.inr (Or.inr (List.mem_singleton.mp hop2))

/-- A concrete one-page document for the C8 witness. -/
def samplePage : AnnPage := { width := 10, height := 20, ops := [] }

/-- Witness for the amended C8 on a concrete one-page document. -/
theorem C8_one_page_completes_witness :
    addHeaderAndFooterToExistingPDF [samplePage] "scan1"
      = Except.ok { pages := [drawFooter (drawHeader samplePage.width samplePage)],
                    outputSaved := true, qrTempFileDeleted := true }
    ∧ (DrawOp.image "footer" 0 0 100 50 ∈ samplePage.ops
        ∨ DrawOp.image "footer" 0 0 100 50
            = DrawOp.image "header" 0 (samplePage.height - 130) samplePage.width 130
        ∨ DrawOp.image "footer" 0 0 100 50 = DrawOp.image "footer" 0 0 100 50) := by
  obtain ⟨h1, h2, h3, h4⟩ := C8_one_page_completes samplePage samplePage samplePage "scan1"
  refine ⟨h1, ?_⟩
  apply h2
  show DrawOp.image "footer" 0 0 100 50
      ∈ (samplePage.ops ++ [DrawOp.image "header" 0 (samplePage.height - 130)
          samplePage.width 130]) ++ [DrawOp.image "footer" 0 0 100 50]
  exact List.mem_append.mpr (Or.inr (List.mem_singleton.mpr rfl))

/-- The header stamp of a page is among the stamped ops. -/
theorem header_mem_stamped (w : ℚ) (page : AnnPage) :
    DrawOp.image "header" 0 (page.height - 130) w 130
      ∈ (drawFooter (drawHeader w page)).ops := by
  show DrawOp.image "header" 0 (page.height - 130) w 130
      ∈ (page.ops ++ [DrawOp.image "header" 0 (page.height - 130) w 130])
        ++ [DrawOp.image "footer" 0 0 100 50]
  exact List.mem_append.mpr (Or.inl (List.mem_append.mpr
    (Or.inr (List.mem_singleton.mpr rfl))))

/-- The annotator never changes the page count. -/
theorem annotatePages_length (pages : List AnnPage) (w : ℚ) (link : String) :
    (annotatePages pages w link).length = pages.length := by
  unfold annotatePages
  have hlen : ((pages.map (drawHeader w)).map drawFooter).length = pages.length := by
    rw [List.length_map, List.length_map]
  by_cases h1 : 1 < ((pages.map (drawHeader w)).map drawFooter).length
  · rw [if_pos h1, List.getElem?_eq_getElem h1, List.length_set]
    exact hlen
  · rw [if_neg h1]
    exact hlen

/-- Pointwise description of the annotated pages: page `i` of the
output is page `i` of the input with the header (sized by `w`) and the
footer stamped, plus the QR overlays when `i = 1` on a multi-page
document; in every case the header stamp with width `w` and the
vertical anchor of the own page height is present. -/
theorem annotatePages_getElem (pages : List AnnPage) (w : ℚ) (link : String)
    (i : Nat) (page : AnnPage) (hpg : pages[i]? = some page) :
    ∃ outPage, (annotatePages pages w link)[i]? = some outPage
      ∧ DrawOp.image "header" 0 (page.height - 130) w 130 ∈ outPage.ops := by
  have hwf : ((pages.map (drawHeader w)).map drawFooter)[i]?
      = some (drawFooter (drawHeader w page)) := by
    rw [List.getElem?_map, List.getElem?_map, hpg]
    rfl
  unfold annotatePages
  by_cases h1 : 1 < ((pages.map (drawHeader w)).map drawFooter).length
  · rw [if_pos h1, List.getElem?_eq_getElem h1]
    by_cases hi : i = 1
    · subst hi
      refine ⟨drawQr link ((pages.map (drawHeader w)).map drawFooter)[1], ?_, ?_⟩
      · rw [List.getElem?_set_self h1]
      · have hval : ((pages.map (drawHeader w)).map drawFooter)[1]
            = drawFooter (drawHeader w page) := by
          have := List.getElem?_eq_getElem h1
          rw [this] at hwf
          exact Option.some.injEq _ _ |>.mp hwf
        rw [hval]
        show DrawOp.image "header" 0 (page.height - 130) w 130
            ∈ (drawFooter (drawHeader w page)).ops
              ++ [DrawOp.rect ((drawFooter (drawHeader w page)).width - 120 - 5)
                    ((drawFooter (drawHeader w page)).height - 130 - 150 - 405) 120 150,
                  DrawOp.image ("qr:" ++ link)
                    ((drawFooter (drawHeader w page)).width - 120 - 5)
                    ((drawFooter (drawHeader w page)).height - 130 - 150 - 405) 120 150]
        exact List.mem_append.mpr (Or.inl (header_mem_stamped w page))
    · refine ⟨drawFooter (drawHeader w page), ?_, header_mem_stamped w page⟩
      rw [List.getElem?_set_ne (fun h => hi h.symm), hwf]
  · rw [if_neg h1]
    exact ⟨drawFooter (drawHeader w page), hwf, header_mem_stamped w page⟩

/-- C10: whenever the annotator succeeds, the output has one page per
input page, and every output page carries a header stamp whose width
is the width of page 0 (`pdfDoc.getPage(0).getWidth()`, line 152) and
whose height is the fixed 130, anchored at the own height of the page;
in particular pages of a different width than page 0 still receive a
header sized to page 0. -/
theorem C10_header_width_from_page0 (pages : List AnnPage) (p0 : AnnPage)
    (link : String) (h0 : pages.head? = some p0) (r : AnnotateResult)
    (hr : addHeaderAndFooterToExistingPDF pages link = Except.ok r) :
    r.pages.length = pages.length
    ∧ ∀ (i : Nat) (page outPage : AnnPage), pages[i]? = some page →
        r.pages[i]? = some outPage →
        DrawOp.image "header" 0 (page.height - 130) p0.width 130 ∈ outPage.ops := by
  cases pages with
  | nil => simp at h0
  | cons q rest =>
      have hq : q = p0 := by simpa using h0
      subst hq
      have h2 : (Except.ok { pages := annotatePages (q :: rest) q.width link,
                             outputSaved := true, qrTempFileDeleted := true }
            : Except String AnnotateResult) = Except.ok r := hr
      injection h2 with h3
      have hrp : r.pages = annotatePages (q :: rest) q.width link := by
        rw [← h3]
      constructor
      · rw [hrp]
        exact annotatePages_length _ _ _
      · intro i page outPage hpg hout
        obtain ⟨outPage2, hsome, hmem⟩ := annotatePages_getElem (q :: rest) q.width link i page hpg
        rw [hrp, hsome] at hout
        have : outPage2 = outPage := Option.some.injEq _ _ |>.mp hout
        rw [← this]
        exact hmem

/-- First page of the non-uniform two-page document for the C10
witness: width 10. -/
def pageA : AnnPage := { width := 10, height := 20, ops := [] }

/-- Second page of the non-uniform two-page document for the C10
witness: width 99, so a correctly own-sized header would differ. -/
def pageB : AnnPage := { width := 99, height := 50, ops := [] }

/-- Witness for C10 on the non-uniform document [pageA, pageB]: the
header drawn on the second page has the width of page 0 (10, not the
own width 99). -/
theorem C10_header_width_from_page0_witness :
    (annotatePages [pageA, pageB] pageA.width "scan1").length
      = ([pageA, pageB] : List AnnPage).length
    ∧ DrawOp.image "header" 0 (pageB.height - 130) pageA.width 130
        ∈ (drawQr "scan1" (drawFooter (drawHeader pageA.width pageB))).ops := by
  obtain ⟨h1, h2⟩ := C10_header_width_from_page0 [pageA, pageB] pageA "scan1" rfl
    { pages := annotatePages [pageA, pageB] pageA.width "scan1",
      outputSaved := true, qrTempFileDeleted := true } rfl
  exact ⟨h1, h2 1 pageB (drawQr "scan1" (drawFooter (drawHeader pageA.width pageB))) rfl rfl⟩

/-! ## AI analysis page: out-of-range spans are tolerated

On the badge page (lines 1164-1174) the phrase of a span is
`text.slice(startIndex, startIndex + lengths[i]).join(" ")`;
`Array.prototype.slice` clamps both bounds to the array, so a span
reaching past the tokenized text produces a truncated (possibly empty)
phrase and never throws. On the highlight page (lines 1277-1311) the
loop ranges over the actual token indices, skips blank tokens, and
highlights an index exactly when `aiWords.starts.includes(index)`; a
start index that is out of range of the token list is never visited,
so it highlights nothing. Both model functions are total: no input
makes them fail. -/

/-- The token indices highlighted by the loop of lines 1277-1311. -/
def highlightedIndices (text : List String) (starts : List Nat) : List Nat :=
  (List.range text.length).filter
    (fun index => ((text.getD index "").trim != "") && starts.contains index)

/-- C9: a span whose start is at or past the end of the tokenized text
yields the empty phrase; a span whose end reaches past the end yields
the truncated phrase of the remaining tokens; and an out-of-range
start index highlights no token on the highlight page. In all cases
the renderer computes a value rather than failing. -/
theorem C9_out_of_range_spans_safe (text : List String)
    (starts lengths : List Nat) (aiCounts humanCounts : List ℚ)
    (i s : Nat) :
    (text.length ≤ starts.getD i 0 →
      (buildPhraseEntry text lengths aiCounts humanCounts i (starts.getD i 0)).phrase = "")
    ∧ (text.length ≤ starts.getD i 0 + lengths.getD i 0 →
      (buildPhraseEntry text lengths aiCounts humanCounts i (starts.getD i 0)).phrase
        = String.intercalate " " (text.drop (starts.getD i 0)))
    ∧ (s ∈ starts → text.length ≤ s → s ∉ highlightedIndices text starts) := by
  refine ⟨?_, ?_, ?_⟩
  · intro hge
    show String.intercalate " "
        (jsSlice text (starts.getD i 0) (starts.getD i 0 + lengths.getD i 0)) = ""
    rw [show jsSlice text (starts.getD i 0) (starts.getD i 0 + lengths.getD i 0)
        = (text.drop (starts.getD i 0)).take
            ((starts.getD i 0 + lengths.getD i 0) - starts.getD i 0) from rfl]
    rw [List.drop_eq_nil_of_le hge, List.take_nil]
    rfl
  · intro hle
    show String.intercalate " "
        (jsSlice text (starts.getD i 0) (starts.getD i 0 + lengths.getD i 0)) = _
    unfold jsSlice
    rw [List.take_of_length_le]
    rw [List.length_drop]
    omega
  · intro hmem hge hcontra
    have h1 := List.mem_filter.mp hcontra
    have h2 := List.mem_range.mp h1.1
    omega

/-- Witness for C9: on the single token ["x"], the span starting at 5
of length 2 renders the empty phrase and highlights nothing. -/
theorem C9_out_of_range_spans_safe_witness :
    (buildPhraseEntry ["x"] [2, 1] [] [] 0 ([5, 0].getD 0 0)).phrase = ""
    ∧ (buildPhraseEntry ["x"] [2, 1] [] [] 0 ([5, 0].getD 0 0)).phrase
        = String.intercalate " " ((["x"] : List String).drop ([5, 0].getD 0 0))
    ∧ 5 ∉ highlightedIndices ["x"] [5, 0] := by
  obtain ⟨h1, h2, h3⟩ := C9_out_of_range_spans_safe ["x"] [5, 0] [2, 1] [] [] 0 5
  exact ⟨h1 (by decide), h2 (by decide), h3 (by decide) (by decide)⟩
